import Mathlib

/-!
# Affinity: role-based access control and the Ubuntu SSO scheme

A shallow embedding of

* `testing/rbac.go`: the fixture domain of the RBAC test-suite (permissions,
  capability maps, `characterRole`, the four resource kinds and their
  `ParentOf`), and
* `providers/usso/scheme.go`: `UssoScheme` with `NewOpenIdWeb`, `NewOauthCli`,
  `Callback`, `Authenticate` and `Validate`,

together with the query engine `Access.Can` and the mutation engine
`Admin.Grant`, whose Go text is not part of the two files above and which are
therefore written down from the specification (sections 3, 4.1, 4.2 and 6).

Conventions.  A Go function returning `(x, err)` returns a pair whose second
component is `Option Error` (`none` is `nil`).  Calls that leave the program
(the SSO server, the JSON decoder, the OpenID handler) are function
parameters.  `log.Printf` / `log.Println` lines have no effect on any returned
value and are left out.
-/

namespace Affinity

/-! ## Go values -/

/-- A Go `map[string]V`, kept as the list of its bindings.  A lookup sees the
first binding of a key; every operation below respects that reading. -/
abbrev GoMap (V : Type) := List (String × V)

namespace GoMap

/-- The value read by `m[k]`, or `none` when `k` is not a key of `m`. -/
def index {V : Type} : GoMap V → String → Option V
  | [], _ => none
  | (k', v) :: rest, k => if k' = k then some v else index rest k

/-- The boolean of the comma-ok form `_, has := m[k]`. -/
def has {V : Type} (m : GoMap V) (k : String) : Bool :=
  (index m k).isSome

/-- The keys of `m`. -/
def keys {V : Type} (m : GoMap V) : List String :=
  m.map Prod.fst

/-- The assignment `m[k] = v`. -/
def insert {V : Type} (m : GoMap V) (k : String) (v : V) : GoMap V :=
  (k, v) :: m.filter (fun kv => decide (kv.1 ≠ k))

/-- The bindings a `for k, v := range m` visits: one per key, with the value a
lookup of that key sees. -/
def entries {V : Type} (m : GoMap V) : GoMap V :=
  m.foldr (fun kv acc => insert acc kv.1 kv.2) []

end GoMap

/-- A value of type `interface{}` as `encoding/json` produces it.  A JSON number
is a `float64` in Go; nothing below inspects it, so only its literal is kept. -/
inductive GoValue where
  | nil
  | bool (b : Bool)
  | float64 (literal : String)
  | string (s : String)
  | slice (xs : List GoValue)
  | map (m : List (String × GoValue))

/-- Go's `error`.  `Errorf format args` is the value of `fmt.Errorf(format, args...)`
(kept unformatted); the next constructors are the error taxonomy of section 7 of
the specification; `upstream` is an error value handed over by a collaborator
(SSO server, JSON decoder, OpenID handler). -/
inductive Error where
  | Errorf (format : String) (args : List GoValue)
  | MalformedIdentity
  | DuplicatePermission
  | DuplicateRole
  | UnknownRole
  | InvalidResource
  | StoreError (cause : String)
  | upstream (msg : String)

/-! ## Permissions and capability maps (`testing/rbac.go`, lines 36-70) -/

/-- The interface `Permission`: a value with a method `Name() string`.  An
implementation is determined, as far as this development goes, by what `Name()`
returns. -/
structure Permission where
  Name : String
deriving DecidableEq

/-- The type `PermissionMap`, a `map[string]Permission`. -/
abbrev PermissionMap := GoMap Permission

/-- Modelled from the spec: `NewPermissionMap` is declared in the root package,
whose text is missing here.  Section 4.3: it builds the set keyed by name and a
duplicate name is the construction-time error `DuplicatePermission`. -/
def NewPermissionMap (perms : List Permission) : Except Error PermissionMap :=
  perms.foldlM
    (fun m p => if GoMap.has m p.Name then Except.error Error.DuplicatePermission
                else Except.ok (m ++ [(p.Name, p)]))
    []

/-- The value of a package-level `var x = NewPermissionMap(...)`: the map when
construction succeeds (it does for every fixture below, see
`fixture_maps_constructed`). -/
def mustPermissionMap (perms : List Permission) : PermissionMap :=
  match NewPermissionMap perms with
  | .ok m => m
  | .error _ => []

def UseThingPerm : Permission := ⟨"use-thing"⟩
def EmptyBucketPerm : Permission := ⟨"empty-bucket"⟩
def FillBucketPerm : Permission := ⟨"fill-bucket"⟩
def ControlShipPerm : Permission := ⟨"control-ship"⟩
def BoardShipPerm : Permission := ⟨"board-ship"⟩
def PerformSurgeryPerm : Permission := ⟨"perform-surgery"⟩
def FilePaperworkPerm : Permission := ⟨"file-paperwork"⟩

def FacilitiesCapabilities : PermissionMap :=
  mustPermissionMap [EmptyBucketPerm, FillBucketPerm, UseThingPerm]

def SpacecraftCapabilities : PermissionMap :=
  mustPermissionMap [ControlShipPerm, BoardShipPerm]

def MedicalCapabilities : PermissionMap :=
  mustPermissionMap [PerformSurgeryPerm]

def BureaucraticCapabilities : PermissionMap :=
  mustPermissionMap [FilePaperworkPerm]

/-! ## Roles (`testing/rbac.go`, lines 72-121) -/

/-- The struct `characterRole`. -/
structure characterRole where
  name : String
  capabilities : PermissionMap
deriving DecidableEq

namespace characterRole

/-- The method `Capabilities`. -/
def Capabilities (r : characterRole) : PermissionMap := r.capabilities

/-- The method `Name`. -/
def Name (r : characterRole) : String := r.name

/-- The method `Can`: `_, has := r.capabilities[do.Name()]; return has`. -/
def Can (r : characterRole) (perm : Permission) : Bool :=
  GoMap.has r.capabilities perm.Name

end characterRole

def UserRole : characterRole := ⟨"user", mustPermissionMap [UseThingPerm]⟩
def JanitorRole : characterRole := ⟨"janitor", mustPermissionMap [EmptyBucketPerm, FillBucketPerm]⟩
def PilotRole : characterRole := ⟨"pilot", mustPermissionMap [BoardShipPerm, ControlShipPerm]⟩
def PassengerRole : characterRole := ⟨"passenger", mustPermissionMap [BoardShipPerm]⟩
def BureaucratRole : characterRole := ⟨"bureaucrat", mustPermissionMap [FilePaperworkPerm]⟩
def DoctorRole : characterRole := ⟨"doctor", mustPermissionMap [PerformSurgeryPerm]⟩

/-- The type `RoleMap`, a `map[string]Role`; the roles of this development are
the `characterRole`s. -/
abbrev RoleMap := GoMap characterRole

/-- Modelled from the spec: `NewRoleMap` is declared in the root package, whose
text is missing here.  Section 4.3: same discipline as `NewPermissionMap`, a
duplicate name is the error `DuplicateRole`. -/
def NewRoleMap (roles : List characterRole) : Except Error RoleMap :=
  roles.foldlM
    (fun m r => if GoMap.has m r.Name then Except.error Error.DuplicateRole
                else Except.ok (m ++ [(r.Name, r)]))
    []

def FuturamaRoles : RoleMap :=
  match NewRoleMap [JanitorRole, PilotRole, PassengerRole, BureaucratRole, DoctorRole, UserRole] with
  | .ok m => m
  | .error _ => []

/-! ## Resources (`testing/rbac.go`, lines 123-153) -/

/-- The struct `facilitiesResource`; `parent` is the pointer field, `none` for `nil`. -/
inductive facilitiesResource where
  | mk (parent : Option facilitiesResource) (name : String)

/-- The field `parent`. -/
def facilitiesResource.parent : facilitiesResource → Option facilitiesResource
  | .mk p _ => p

/-- The field `name`. -/
def facilitiesResource.name : facilitiesResource → String
  | .mk _ n => n

/-- The dynamic type of a `Resource` value: the resource kind. -/
inductive Kind where
  | facilities
  | spacecraft
  | medical
  | bureaucratic
deriving DecidableEq

/-- A non-nil value of the interface `Resource`: one of the four implementing
types of the fixture domain (`spacecraftResource`, `medicalResource` and
`bureaucraticResource` are defined as `string`).  The nil interface value is
`none : Option Resource`. -/
inductive Resource where
  | facilities (r : facilitiesResource)
  | spacecraft (r : String)
  | medical (r : String)
  | bureaucratic (r : String)

namespace Resource

/-- The resource kind. -/
def kind : Resource → Kind
  | .facilities _ => Kind.facilities
  | .spacecraft _ => Kind.spacecraft
  | .medical _ => Kind.medical
  | .bureaucratic _ => Kind.bureaucratic

/-- The method `Capabilities` of each of the four types. -/
def Capabilities : Resource → PermissionMap
  | .facilities _ => FacilitiesCapabilities
  | .spacecraft _ => SpacecraftCapabilities
  | .medical _ => MedicalCapabilities
  | .bureaucratic _ => BureaucraticCapabilities

/-- The method `URI` of each of the four types. -/
def URI : Resource → String
  | .facilities r => r.name
  | .spacecraft r => r
  | .medical r => r
  | .bureaucratic r => r

/-- The method `ParentOf` of each of the four types. -/
def ParentOf : Resource → Option Resource
  | .facilities r =>
    match r.parent with
    | none => none
    | some p => some (.facilities p)
  | .spacecraft _ => none
  | .medical _ => none
  | .bureaucratic _ => none

/-- The resource reached from `r` by `n` applications of `ParentOf`, if there is one. -/
def nthParent : Nat → Resource → Option Resource
  | 0, r => some r
  | n + 1, r =>
    match r.ParentOf with
    | none => none
    | some p => nthParent n p

/-- The number of `ParentOf` steps from `r` to its root. -/
def facilitiesDepth : facilitiesResource → Nat
  | .mk none _ => 0
  | .mk (some p) _ => facilitiesDepth p + 1

/-- The number of `ParentOf` steps from `r` to its root. -/
def depth : Resource → Nat
  | .facilities r => facilitiesDepth r
  | _ => 0

/-- Modelled from the spec: step 2 of `Access.Can` (section 4.1), whose text is
missing here: the sequence `[r, r.ParentOf(), r.ParentOf().ParentOf(), ...]`
until a "none" parent is reached, here cut after at most `fuel` steps. -/
def ancestorsUpTo : Nat → Resource → List Resource
  | 0, r => [r]
  | fuel + 1, r =>
    match r.ParentOf with
    | none => [r]
    | some p => r :: ancestorsUpTo fuel p

/-- Modelled from the spec: the ancestor chain of step 2 of `Access.Can`.  A
resource is a finite tree value, so `depth r` steps reach the root (see
`ancestors_unfold` and `ancestors_last_is_root`). -/
def ancestors (r : Resource) : List Resource :=
  ancestorsUpTo r.depth r

end Resource

/-! ## Principals -/

/-- The struct `Identity` of the root package, as `scheme.go` builds it:
`Identity{Scheme: ..., Id: ...}`. -/
structure Identity where
  Scheme : String
  Id : String
deriving DecidableEq

/-- The struct `User` of the root package, as `scheme.go` builds it:
`User{Identity{...}}`.  `User{}` is the zero value. -/
structure User where
  Identity : Identity
deriving DecidableEq

/-- Modelled from the spec: `ParseUser` is declared in the root package, whose
text is missing here.  Section 3: an identity is parsed from the canonical
"scheme:id" string, and parsing fails with `MalformedIdentity` if the separator
is absent or either part is empty. -/
def ParseUser (s : String) : Except Error User :=
  match s.toList.span (fun c => decide (c ≠ ':')) with
  | (_, []) => .error Error.MalformedIdentity
  | (scheme, _ :: id) =>
    if scheme = [] ∨ id = [] then .error Error.MalformedIdentity
    else .ok ⟨⟨String.mk scheme, String.mk id⟩⟩

/-- Modelled from the spec: `MustParseUser`, the variant of `ParseUser` used by
the tests on well-formed literals; a malformed literal has no value. -/
def MustParseUser (s : String) : Option User :=
  match ParseUser s with
  | .ok u => some u
  | .error _ => none

/-! ## Grants and the store (specification, sections 3 and 6) -/

/-- Modelled from the spec: the `Grant` record of section 3, whose declaration is
missing here: (principal, role name, resource kind discriminator, resource URI). -/
structure Grant where
  principal : User
  role : String
  kind : Kind
  uri : String
deriving DecidableEq

/-- Modelled from the spec: the grant names resource `r`, i.e. agrees with it in
kind and in URI (section 4.1, step 4). -/
def Grant.names (g : Grant) (r : Resource) : Bool :=
  decide (g.kind = r.kind) && decide (g.uri = r.URI)

/-- Modelled from the spec: two grants are for the same (principal, resource)
pair: same principal, same resource kind, same resource URI (section 3). -/
def Grant.samePair (g h : Grant) : Bool :=
  decide (g.principal = h.principal) && decide (g.kind = h.kind) && decide (g.uri = h.uri)

/-- Modelled from the spec: the `Store` collaborator of sections 3 and 6, whose
implementations are missing here.  It holds the durable set of grants; `fault`,
when set, is the storage failure that every read and write reports. -/
structure Store where
  grants : List Grant
  fault : Option String

namespace Store

/-- Modelled from the spec: `ListGrants(principal) -> ([]Grant, error)` (section 6). -/
def ListGrants (s : Store) (pr : User) : Except Error (List Grant) :=
  match s.fault with
  | some cause => .error (Error.StoreError cause)
  | none => .ok (s.grants.filter (fun g => decide (g.principal = pr)))

/-- Modelled from the spec: `UpsertGrant(Grant) -> error` (section 6 and 4.2 step
3): the record replaces any existing grant for the same (principal, resource
kind, resource URI). -/
def UpsertGrant (s : Store) (g : Grant) : Except Error Store :=
  match s.fault with
  | some cause => .error (Error.StoreError cause)
  | none => .ok ⟨s.grants.filter (fun old => not (old.samePair g)) ++ [g], s.fault⟩

end Store

/-! ## The two engines (specification, sections 4.1 and 4.2) -/

/-- Modelled from the spec: the `Admin` engine.  It is stateless except for its
role registry; the store it was constructed with is passed to each call. -/
structure Admin where
  roles : RoleMap

/-- Modelled from the spec: the `Access` engine, stateless except for its role
registry; the store it was constructed with is passed to each call. -/
structure Access where
  roles : RoleMap

/-- Modelled from the spec: `Admin.Grant(principal, role, resource) -> error`
(section 4.2), whose text is missing here.  The result is the store after the
call and the error.
1. the role must be present in the RoleMap by name, else `UnknownRole`;
2. the resource URI must be non-empty, else `InvalidResource`;
3. the grant is upserted;
4. a store write failure is propagated. -/
def Admin.Grant (a : Admin) (s : Store) (pr : User) (role : characterRole) (r : Resource) :
    Store × Option Error :=
  if !GoMap.has a.roles role.Name then (s, some Error.UnknownRole)
  else if r.URI = "" then (s, some Error.InvalidResource)
  else
    match s.UpsertGrant ⟨pr, role.Name, r.kind, r.URI⟩ with
    | .ok s' => (s', none)
    | .error e => (s, some e)

/-- Modelled from the spec: the test of step 4 of `Access.Can` on one grant: its
role name resolves in the RoleMap (an unknown role is skipped) and the resolved
role's capabilities contain the permission. -/
def Access.roleGrants (a : Access) (pm : Permission) (g : Grant) : Bool :=
  match GoMap.index a.roles g.role with
  | none => false
  | some role => GoMap.has role.Capabilities pm.Name

/-- Modelled from the spec: `Access.Can(principal, permission, resource) ->
(bool, error)` (section 4.1), whose text is missing here.
1. type validation: a permission outside `resource.Capabilities()` gives `(false, nil)`;
2. the ancestor chain is built;
3. the grants of the principal are read once; a failure gives `(false, error)`;
4. closest ancestor first, a grant naming the ancestor whose role resolves and
   contains the permission gives `(true, nil)`;
5. otherwise `(false, nil)`.
The depth guard that step 2 recommends against cyclic hierarchies is not needed:
a `Resource` value has a finite chain. -/
def Access.Can (a : Access) (s : Store) (pr : User) (pm : Permission) (r : Resource) :
    Bool × Option Error :=
  if !GoMap.has r.Capabilities pm.Name then (false, none)
  else
    let chain := r.ancestors
    match s.ListGrants pr with
    | .error e => (false, some e)
    | .ok gs =>
      if chain.any (fun anc => gs.any (fun g => g.names anc && a.roleGrants pm g)) then (true, none)
      else (false, none)

/-! ## The Ubuntu SSO scheme (`providers/usso/scheme.go`) -/

/-- The type `url.Values` of the standard library, a `map[string][]string`. -/
abbrev Values := GoMap (List String)

/-- The method `url.Values.Get` of the standard library: the first value
associated with the key, and "" if there is none. -/
def Values.Get (v : Values) (key : String) : String :=
  match GoMap.index v key with
  | some (x :: _) => x
  | _ => ""

/-- The five credentials `Validate` reads, in the order it reads them. -/
def credentialFields : List String :=
  ["ConsumerKey", "ConsumerSecret", "TokenKey", "TokenSecret", "TokenName"]

/-- A credential is absent or empty in `v`: the key is not in the map, or it has
no value, or its first value is the empty string. -/
def Values.lacks (v : Values) (key : String) : Bool :=
  match GoMap.index v key with
  | none => true
  | some [] => true
  | some (x :: _) => decide (x = "")

/-- The struct `usso.SSOData`, with the fields `Validate` fills in. -/
structure SSOData where
  ConsumerKey : String
  ConsumerSecret : String
  TokenKey : String
  TokenSecret : String
  TokenName : String
deriving DecidableEq

/-- An incoming `*http.Request`; the handlers below are arbitrary functions of it. -/
structure Request where
  URL : String
  Form : Values

/-- The handler `*common.OpenID`, whose text is missing here, as the two calls
`scheme.go` makes on it: `Callback` is the list of id maps with which the
handler invokes the success closure it is given (in order; empty when it does
not), `Authenticate` its `(bool, error)` result for a login URL and a request. -/
structure OpenID where
  Callback : Request → List (GoMap String)
  Authenticate : String → Request → Bool × Option Error

/-- The two implementations of the interface `PasswordProvider` that `scheme.go` uses. -/
inductive PasswordProvider where
  | PasswordUnavailable
  | PasswordPrompter
deriving DecidableEq

/-- The struct `UssoScheme`; `OpenID` is a pointer, `none` for `nil`. -/
structure UssoScheme where
  PasswordProvider : PasswordProvider
  Token : String
  OpenID : Option OpenID

/-- What `scheme.go` calls outside itself:
* `NewSimpleOpenID`: `common.NewSimpleOpenID(scheme, token)`, returning a pointer;
* `LoginURL`: `usso.ProductionUbuntuSSOServer.LoginURL()`;
* `GetAccounts`: `usso.ProductionUbuntuSSOServer.GetAccounts(&ssoData)`;
* `Unmarshal`: `json.Unmarshal([]byte(raw), &result)` on a fresh empty
  `map[string]interface{}`; the value is the map after a call that returned `nil`. -/
structure Collaborators where
  NewSimpleOpenID : String → String → Option OpenID
  LoginURL : String
  GetAccounts : SSOData → Except Error String
  Unmarshal : String → Except Error (GoMap GoValue)

/-- The constructor `NewOpenIdWeb`. -/
def NewOpenIdWeb (c : Collaborators) (scheme : String) (token : String) : UssoScheme :=
  { PasswordProvider := PasswordProvider.PasswordUnavailable
    Token := token
    OpenID := c.NewSimpleOpenID scheme token }

/-- The constructor `NewOauthCli`; the field `OpenID` is left at its zero value. -/
def NewOauthCli (token : String) : UssoScheme :=
  { PasswordProvider := PasswordProvider.PasswordPrompter
    Token := token
    OpenID := none }

namespace UssoScheme

/-- The method `Name`. -/
def Name (_s : UssoScheme) : String := "usso"

/-- The closure `Callback` hands to the OpenID handler, as a step from the
captured variables `(user, values, err)` to their values after one invocation
with `id`. -/
def callbackStep (s : UssoScheme) (acc : User × Values × Option Error) (id : GoMap String) :
    User × Values × Option Error :=
  (⟨⟨s.Name, (GoMap.index id "email").getD ""⟩⟩,
   (GoMap.entries id).foldl (fun values kv => GoMap.insert values kv.1 [kv.2]) acc.2.1,
   none)

/-- The variables `(user, values, err)` of `Callback` after the call
`s.OpenID.Callback(w, r, func ...)` on the handler `o`: they start as the zero
`User`, an empty map and the error "Failed to authenticate". -/
def callbackRun (s : UssoScheme) (o : Affinity.OpenID) (r : Request) : User × Values × Option Error :=
  (o.Callback r).foldl s.callbackStep
    (⟨⟨"", ""⟩⟩, [], some (Error.Errorf "Failed to authenticate" []))

/-- The method `Callback`.  The returned `url.Values` is `none` for `nil`. -/
def Callback (s : UssoScheme) (r : Request) : User × Option Values × Option Error :=
  match s.OpenID with
  | none => (⟨⟨"", ""⟩⟩, none, some (Error.Errorf "OpenID not supported" []))
  | some o =>
    let out := s.callbackRun o r
    (out.1, some out.2.1, out.2.2)

/-- The method `Authenticate`.  The second component is the `http.Error(w, body,
status)` this method itself writes, if any. -/
def Authenticate (s : UssoScheme) (c : Collaborators) (r : Request) :
    Bool × Option (String × Nat) :=
  match s.OpenID with
  | none => (false, some ("Server error", 500))
  | some o =>
    match o.Authenticate c.LoginURL r with
    | (_, some _) => (false, some ("Server error", 500))
    | (rv, none) => (rv, none)

/-- The method `Validate`.  The result is `((id, err), requests)`, where
`requests` lists the `GetAccounts` calls made to the SSO server. -/
def Validate (_s : UssoScheme) (c : Collaborators) (values : Values) :
    (String × Option Error) × List SSOData :=
  let consumerKey := Values.Get values "ConsumerKey"
  if consumerKey = "" then
    (("", some (Error.Errorf "No ConsumerKey provided in authorization" [])), [])
  else
  let consumerSecret := Values.Get values "ConsumerSecret"
  if consumerSecret = "" then
    (("", some (Error.Errorf "No ConsumerSecret provided in authorization" [])), [])
  else
  let tokenKey := Values.Get values "TokenKey"
  if tokenKey = "" then
    (("", some (Error.Errorf "No TokenKey provided in authorization" [])), [])
  else
  let tokenSecret := Values.Get values "TokenSecret"
  if tokenSecret = "" then
    (("", some (Error.Errorf "No TokenSecret provided in authorization" [])), [])
  else
  let tokenName := Values.Get values "TokenName"
  if tokenName = "" then
    (("", some (Error.Errorf "No TokenName provided in authorization" [])), [])
  else
  let ssoData : SSOData :=
    { ConsumerKey := consumerKey
      ConsumerSecret := consumerSecret
      TokenKey := tokenKey
      TokenSecret := tokenSecret
      TokenName := tokenName }
  match c.GetAccounts ssoData with
  | .error err => (("", some err), [ssoData])
  | .ok resultRaw =>
    match c.Unmarshal resultRaw with
    | .error err => (("", some err), [ssoData])
    | .ok result =>
      let hasEmail := GoMap.has result "email"
      let hasDisplayName := GoMap.has result "displayname"
      let hasTokens := GoMap.has result "tokens"
      if !hasEmail || !hasDisplayName || !hasTokens then
        (("", some (Error.Errorf "SSO validation failed, missing required fields" [])), [ssoData])
      else
        match GoMap.index result "email" with
        | some (GoValue.string email) =>
          if email = "" then
            (("", some (Error.Errorf "Invalid SSO data received for %v" [GoValue.string email])),
              [ssoData])
          else ((email, none), [ssoData])
        | other =>
          (("", some (Error.Errorf "Invalid SSO data received for %v" [other.getD GoValue.nil])),
            [ssoData])

end UssoScheme

/-! ## Scenarios of the test-suite -/

/-- `MustParseUser("test:scruffy")`. -/
def scruffy : User := ⟨⟨"test", "scruffy"⟩⟩

/-- `MustParseUser("test:fry")`. -/
def fry : User := ⟨⟨"test", "fry"⟩⟩

/-- `MustParseUser("test:leela")`. -/
def leela : User := ⟨⟨"test", "leela"⟩⟩

/-- `MustParseUser("test:bender")`. -/
def bender : User := ⟨⟨"test", "bender"⟩⟩

/-- `facilitiesResource{name: "facilities:bucket"}`. -/
def bucket : Resource := Resource.facilities (facilitiesResource.mk none "facilities:bucket")

/-- `facilitiesResource{name: "walrus:bucket"}`. -/
def walrusBucket : Resource := Resource.facilities (facilitiesResource.mk none "walrus:bucket")

/-- `facilitiesResource{name: "spacecraft:ship"}`. -/
def shipAsFacility : Resource :=
  Resource.facilities (facilitiesResource.mk none "spacecraft:ship")

/-- `spacecraftResource("spacecraft:ship")`. -/
def ship : Resource := Resource.spacecraft "spacecraft:ship"

/-- `building` of `TestResourceParentGrant`. -/
def building : facilitiesResource := facilitiesResource.mk none "planet-express-hq"

/-- `vendingMachine` of `TestResourceParentGrant`. -/
def vendingMachine : facilitiesResource :=
  facilitiesResource.mk (some building) "vending-machine"

/-- A working store without grants. -/
def emptyStore : Store := ⟨[], none⟩

/-- The store after `Grant(test:scruffy, janitor, facilities:bucket)`. -/
def scruffyStore : Store :=
  ⟨[⟨scruffy, "janitor", Kind.facilities, "facilities:bucket"⟩], none⟩

/-- The store after `Grant(test:bender, user, planet-express-hq)`. -/
def benderStore : Store :=
  ⟨[⟨bender, "user", Kind.facilities, "planet-express-hq"⟩], none⟩

/-- A store in which fry is passenger and leela is pilot on the ship. -/
def crewStore : Store :=
  ⟨[⟨fry, "passenger", Kind.spacecraft, "spacecraft:ship"⟩,
    ⟨leela, "pilot", Kind.spacecraft, "spacecraft:ship"⟩], none⟩

/-- A failing store in which scruffy is (wrongly) pilot on the ship. -/
def brokenStore : Store :=
  ⟨[⟨scruffy, "pilot", Kind.spacecraft, "spacecraft:ship"⟩], some "connection refused"⟩

/-- An OpenID handler that reports one successful login. -/
def sampleOpenID : OpenID :=
  { Callback := fun _ => [[("email", "fry@planetexpress.example"), ("fullname", "Philip J. Fry")]]
    Authenticate := fun _ _ => (true, none) }

/-- A reply of the SSO server: an account object. -/
def sampleReply : String :=
  "\x7b\"email\": \"fry@planetexpress.example\", \"displayname\": \"Fry\", \"tokens\": []\x7d"

/-- Collaborators for the scenarios: the server answers every request with
`sampleReply`, which decodes to its three fields; any other text is rejected. -/
def sampleCollaborators : Collaborators :=
  { NewSimpleOpenID := fun _ _ => some sampleOpenID
    LoginURL := "https://login.ubuntu.com/+openid"
    GetAccounts := fun _ => .ok sampleReply
    Unmarshal := fun raw =>
      if raw = sampleReply then
        .ok [("email", GoValue.string "fry@planetexpress.example"),
             ("displayname", GoValue.string "Fry"),
             ("tokens", GoValue.slice [])]
      else .error (Error.upstream "invalid character") }

/-- Collaborators whose `common.NewSimpleOpenID` returns a nil pointer; the rest
is as in `sampleCollaborators`. -/
def handlerlessCollaborators : Collaborators :=
  { NewSimpleOpenID := fun _ _ => none
    LoginURL := sampleCollaborators.LoginURL
    GetAccounts := sampleCollaborators.GetAccounts
    Unmarshal := sampleCollaborators.Unmarshal }

/-- Credentials as `Auth` returns them. -/
def sampleCredentials : Values :=
  [("ConsumerKey", ["ck"]), ("ConsumerSecret", ["cs"]), ("TokenKey", ["tk"]),
   ("TokenName", ["affinity"]), ("TokenSecret", ["ts"]), ("Affinity-Scheme", ["usso"])]

/-- Credentials whose `TokenKey` is empty and whose `TokenName` is absent. -/
def brokenCredentials : Values :=
  [("ConsumerKey", ["ck"]), ("ConsumerSecret", ["cs"]), ("TokenKey", [""]),
   ("TokenSecret", ["ts"])]

/-- Some request. -/
def sampleRequest : Request := ⟨"/callback", []⟩


/-! ## Lemmas on Go maps -/

theorem GoMap.has_iff_mem_keys {V : Type} (m : GoMap V) (k : String) :
    GoMap.has m k = true ↔ k ∈ GoMap.keys m := by
  induction m with
  | nil => simp [GoMap.has, GoMap.index, GoMap.keys]
  | cons kv rest ih =>
    obtain ⟨k', v⟩ := kv
    by_cases h : k' = k
    · simp [GoMap.has, GoMap.index, GoMap.keys, h]
    · have hne : ¬ k = k' := fun e => h e.symm
      simp only [GoMap.has, GoMap.index, GoMap.keys, h, if_false, List.map_cons,
        List.mem_cons, hne, false_or] at ih ⊢
      exact ih

theorem GoMap.has_of_index {V : Type} (m : GoMap V) (k : String) (v : V)
    (h : GoMap.index m k = some v) : GoMap.has m k = true := by
  simp [GoMap.has, h]

/-- Every capability map and the role map of the fixture domain is built without
a duplicate-name error. -/
theorem fixture_maps_constructed :
    NewPermissionMap [EmptyBucketPerm, FillBucketPerm, UseThingPerm] = .ok FacilitiesCapabilities ∧
    NewPermissionMap [ControlShipPerm, BoardShipPerm] = .ok SpacecraftCapabilities ∧
    NewPermissionMap [PerformSurgeryPerm] = .ok MedicalCapabilities ∧
    NewPermissionMap [FilePaperworkPerm] = .ok BureaucraticCapabilities ∧
    NewRoleMap [JanitorRole, PilotRole, PassengerRole, BureaucratRole, DoctorRole, UserRole]
      = .ok FuturamaRoles := by
  refine ⟨?_, ?_, ?_, ?_, ?_⟩ <;> rfl

/-! ## Lemmas on the resource hierarchy -/

theorem Resource.depth_of_parent (r p : Resource) (h : r.ParentOf = some p) :
    r.depth = p.depth + 1 := by
  cases r with
  | facilities f =>
    cases f with
    | mk parent name =>
      cases parent with
      | none => simp [Resource.ParentOf, facilitiesResource.parent] at h
      | some q =>
        simp only [Resource.ParentOf, facilitiesResource.parent, Option.some.injEq] at h
        subst h
        simp [Resource.depth, Resource.facilitiesDepth]
  | spacecraft s => simp [Resource.ParentOf] at h
  | medical s => simp [Resource.ParentOf] at h
  | bureaucratic s => simp [Resource.ParentOf] at h

/-- The chain of step 2 is the resource followed by the chain of its parent, and
stops at a resource without parent. -/
theorem Resource.ancestors_unfold (r : Resource) :
    r.ancestors =
      match r.ParentOf with
      | none => [r]
      | some p => r :: p.ancestors := by
  cases h : r.ParentOf with
  | none =>
    unfold Resource.ancestors
    cases r.depth <;> simp [Resource.ancestorsUpTo, h]
  | some p =>
    unfold Resource.ancestors
    rw [Resource.depth_of_parent r p h]
    simp [Resource.ancestorsUpTo, h]

theorem Resource.mem_ancestors_iff (A : Resource) :
    ∀ (d : Nat) (r : Resource), r.depth = d →
      (A ∈ r.ancestors ↔ ∃ n, Resource.nthParent n r = some A) := by
  intro d
  induction d with
  | zero =>
    intro r hd
    rw [Resource.ancestors_unfold]
    cases h : r.ParentOf with
    | none =>
      simp only [List.mem_singleton]
      constructor
      · intro e; exact ⟨0, by simp [Resource.nthParent, e]⟩
      · rintro ⟨n, hn⟩
        cases n with
        | zero => simpa [Resource.nthParent] using hn.symm
        | succ n => simp [Resource.nthParent, h] at hn
    | some p =>
      have := Resource.depth_of_parent r p h
      omega
  | succ d ih =>
    intro r hd
    rw [Resource.ancestors_unfold]
    cases h : r.ParentOf with
    | none =>
      simp only [List.mem_singleton]
      constructor
      · intro e; exact ⟨0, by simp [Resource.nthParent, e]⟩
      · rintro ⟨n, hn⟩
        cases n with
        | zero => simpa [Resource.nthParent] using hn.symm
        | succ n => simp [Resource.nthParent, h] at hn
    | some p =>
      have hp : p.depth = d := by
        have := Resource.depth_of_parent r p h
        omega
      simp only [List.mem_cons]
      rw [ih p hp]
      constructor
      · rintro (e | ⟨n, hn⟩)
        · exact ⟨0, by simp [Resource.nthParent, e]⟩
        · exact ⟨n + 1, by simp [Resource.nthParent, h, hn]⟩
      · rintro ⟨n, hn⟩
        cases n with
        | zero => left; simpa [Resource.nthParent] using hn.symm
        | succ n =>
          right
          simp only [Resource.nthParent, h] at hn
          exact ⟨n, hn⟩

/-- A resource is in the chain of step 2 exactly when repeated `ParentOf`
reaches it. -/
theorem Resource.mem_ancestors (A r : Resource) :
    A ∈ r.ancestors ↔ ∃ n, Resource.nthParent n r = some A :=
  Resource.mem_ancestors_iff A r.depth r rfl

/-- The chain of step 2 ends in a root: its last element has no parent, so no
ancestor is cut off. -/
theorem Resource.ancestors_last_is_root :
    ∀ (d : Nat) (r : Resource), r.depth = d →
      ∃ root, r.ancestors.getLast? = some root ∧ root.ParentOf = none := by
  intro d
  induction d with
  | zero =>
    intro r hd
    rw [Resource.ancestors_unfold]
    cases h : r.ParentOf with
    | none => exact ⟨r, by simp, h⟩
    | some p =>
      have := Resource.depth_of_parent r p h
      omega
  | succ d ih =>
    intro r hd
    rw [Resource.ancestors_unfold]
    cases h : r.ParentOf with
    | none => exact ⟨r, by simp, h⟩
    | some p =>
      have hp : p.depth = d := by
        have := Resource.depth_of_parent r p h
        omega
      obtain ⟨root, hlast, hroot⟩ := ih p hp
      refine ⟨root, ?_, hroot⟩
      simp only []
      rw [List.getLast?_cons, hlast]
      rfl

/-! ## The claims -/

/-- C1: for every `characterRole` r and permission p, `r.Can(p)` is true exactly
when `p.Name()` is a key of `r.Capabilities()`; `PassengerRole` can board the
ship but not control it, `PilotRole` can do both. -/
theorem characterRole_Can_iff_capability (r : characterRole) (p : Permission) :
    (r.Can p = true ↔ p.Name ∈ GoMap.keys r.Capabilities) ∧
    PassengerRole.Can BoardShipPerm = true ∧
    PassengerRole.Can ControlShipPerm = false ∧
    PilotRole.Can BoardShipPerm = true ∧
    PilotRole.Can ControlShipPerm = true := by
  refine ⟨?_, by decide, by decide, by decide, by decide⟩
  unfold characterRole.Can characterRole.Capabilities
  exact GoMap.has_iff_mem_keys r.capabilities p.Name

/-- C7: `ParentOf` of a `facilitiesResource` is none exactly when its `parent`
field is nil, and otherwise is the resource the field points to (same URI, same
parent); `ParentOf` of a spacecraft, medical or bureaucratic resource is always
none, so the ancestor chain of such a resource is the resource alone, whatever
the number of steps allowed. -/
theorem ParentOf_none_exactly_at_root :
    (∀ r : facilitiesResource,
      ((Resource.facilities r).ParentOf = none ↔ r.parent = none) ∧
      (∀ p : facilitiesResource, r.parent = some p →
        (Resource.facilities r).ParentOf = some (Resource.facilities p) ∧
        ∀ q : Resource, (Resource.facilities r).ParentOf = some q →
          q.kind = Kind.facilities ∧ q.URI = p.name ∧
          q.ParentOf = (Resource.facilities p).ParentOf)) ∧
    (∀ s : String,
      (Resource.spacecraft s).ParentOf = none ∧
      (Resource.medical s).ParentOf = none ∧
      (Resource.bureaucratic s).ParentOf = none ∧
      (Resource.spacecraft s).ancestors = [Resource.spacecraft s] ∧
      (Resource.medical s).ancestors = [Resource.medical s] ∧
      (Resource.bureaucratic s).ancestors = [Resource.bureaucratic s] ∧
      ∀ fuel : Nat,
        Resource.ancestorsUpTo fuel (Resource.spacecraft s) = [Resource.spacecraft s] ∧
        Resource.ancestorsUpTo fuel (Resource.medical s) = [Resource.medical s] ∧
        Resource.ancestorsUpTo fuel (Resource.bureaucratic s) = [Resource.bureaucratic s]) := by
  constructor
  · intro r
    cases r with
    | mk parent name =>
      cases parent with
      | none => simp [Resource.ParentOf, facilitiesResource.parent]
      | some p0 =>
        refine ⟨by simp [Resource.ParentOf, facilitiesResource.parent], ?_⟩
        intro p hp
        simp only [facilitiesResource.parent, Option.some.injEq] at hp
        subst hp
        refine ⟨by simp [Resource.ParentOf, facilitiesResource.parent], ?_⟩
        intro q hq
        simp only [Resource.ParentOf, facilitiesResource.parent, Option.some.injEq] at hq
        subst hq
        simp [Resource.kind, Resource.URI]
  · intro s
    refine ⟨rfl, rfl, rfl, rfl, rfl, rfl, ?_⟩
    intro fuel
    cases fuel <;> simp [Resource.ancestorsUpTo, Resource.ParentOf]

/-! ### The query engine -/

theorem Access.Can_true_of_grant (a : Access) (s : Store) (U : User) (P : Permission)
    (R A : Resource) (gs : List Grant) (g : Grant)
    (hP : GoMap.has R.Capabilities P.Name = true)
    (hread : s.ListGrants U = .ok gs) (hg : g ∈ gs)
    (hA : A ∈ R.ancestors) (hname : g.names A = true) (hrole : a.roleGrants P g = true) :
    a.Can s U P R = (true, none) := by
  have hany : R.ancestors.any (fun anc => gs.any (fun g => g.names anc && a.roleGrants P g))
      = true := by
    rw [List.any_eq_true]
    refine ⟨A, hA, ?_⟩
    rw [List.any_eq_true]
    exact ⟨g, hg, by simp [hname, hrole]⟩
  simp [Access.Can, hP, hread, hany]

theorem Access.Can_false_of_no_grant (a : Access) (s : Store) (U : User) (P : Permission)
    (R : Resource) (gs : List Grant)
    (hread : s.ListGrants U = .ok gs)
    (hno : ∀ A ∈ R.ancestors, ∀ g ∈ gs, g.names A = true → a.roleGrants P g = false) :
    a.Can s U P R = (false, none) := by
  have hany : R.ancestors.any (fun anc => gs.any (fun g => g.names anc && a.roleGrants P g))
      = false := by
    rw [List.any_eq_false]
    intro A hA
    rw [Bool.not_eq_true, List.any_eq_false]
    intro g hg
    cases hn : g.names A with
    | false => simp
    | true => simp [hno A hA g hg hn]
  by_cases hP : GoMap.has R.Capabilities P.Name = true
  · simp [Access.Can, hP, hread, hany]
  · simp [Access.Can, hP]

theorem Access.Can_true_has_grant (a : Access) (s : Store) (U : User) (P : Permission)
    (R : Resource) (h : (a.Can s U P R).1 = true) :
    ∃ gs g A, s.ListGrants U = .ok gs ∧ g ∈ gs ∧ A ∈ R.ancestors ∧ g.names A = true ∧
      a.roleGrants P g = true := by
  unfold Access.Can at h
  by_cases hP : GoMap.has R.Capabilities P.Name = true
  · simp only [hP, Bool.not_true, Bool.false_eq_true, if_false] at h
    cases hread : s.ListGrants U with
    | error e => simp [hread] at h
    | ok gs =>
      simp only [hread] at h
      by_cases hany : R.ancestors.any
          (fun anc => gs.any (fun g => g.names anc && a.roleGrants P g)) = true
      · rw [List.any_eq_true] at hany
        obtain ⟨A, hA, hA2⟩ := hany
        rw [List.any_eq_true] at hA2
        obtain ⟨g, hg, hg2⟩ := hA2
        rw [Bool.and_eq_true] at hg2
        exact ⟨gs, g, A, rfl, hg, hA, hg2.1, hg2.2⟩
      · simp [hany] at h
  · simp [hP] at h

theorem Store.listed_after_upsert (s s' : Store) (g : Grant)
    (h : s.UpsertGrant g = .ok s') :
    ∃ gs, s'.ListGrants g.principal = .ok gs ∧ g ∈ gs := by
  cases hf : s.fault with
  | some cause => simp [Store.UpsertGrant, hf] at h
  | none =>
    simp only [Store.UpsertGrant, hf, Except.ok.injEq] at h
    subst h
    refine ⟨(s.grants.filter (fun old => not (old.samePair g)) ++ [g]).filter
      (fun g' => decide (g'.principal = g.principal)), ?_, ?_⟩
    · simp only [Store.ListGrants, hf]
    · simp

/-- C2: for a role Q registered in the RoleMap (its name resolves to Q), a
permission P that Q can and that is in `R.Capabilities()`: once
`Admin.Grant(U, Q, R)` has succeeded, `Access.Can(U, P, R)` on the resulting
store is `(true, nil)`. -/
theorem Grant_then_Can (roles : RoleMap) (s s' : Store) (U : User) (Q : characterRole)
    (R : Resource) (P : Permission)
    (hreg : GoMap.index roles Q.Name = some Q)
    (hQ : Q.Can P = true)
    (hR : P.Name ∈ GoMap.keys R.Capabilities)
    (hgrant : (Admin.mk roles).Grant s U Q R = (s', none)) :
    (Access.mk roles).Can s' U P R = (true, none) := by
  have hhas : GoMap.has roles Q.Name = true := GoMap.has_of_index roles Q.Name Q hreg
  unfold Admin.Grant at hgrant
  simp only [hhas, Bool.not_true, Bool.false_eq_true, if_false] at hgrant
  by_cases huri : R.URI = ""
  · simp [huri] at hgrant
  · simp only [huri, if_false] at hgrant
    cases hup : s.UpsertGrant ⟨U, Q.Name, R.kind, R.URI⟩ with
    | error e => simp [hup] at hgrant
    | ok s'' =>
      simp only [hup, Prod.mk.injEq, and_true] at hgrant
      subst hgrant
      obtain ⟨gs, hread, hg⟩ := Store.listed_after_upsert s s'' _ hup
      refine Access.Can_true_of_grant (Access.mk roles) s'' U P R R gs
        ⟨U, Q.Name, R.kind, R.URI⟩ ((GoMap.has_iff_mem_keys _ _).mpr hR) hread hg ?_ ?_ ?_
      · exact (Resource.mem_ancestors R R).mpr ⟨0, rfl⟩
      · simp [Grant.names]
      · simpa [Access.roleGrants, hreg, characterRole.Can, characterRole.Capabilities] using hQ

/-- C3: if A is reached from R by repeated `ParentOf`, the store lists for U a
grant naming A whose role resolves to a role with P among its capabilities, and
`R.Capabilities()` contains P, then `Access.Can(U, P, R)` is `(true, nil)`; no
grant needs to name R itself. -/
theorem Can_by_grant_on_ancestor (roles : RoleMap) (s : Store) (U : User) (P : Permission)
    (R A : Resource) (n : Nat) (gs : List Grant) (g : Grant) (Q : characterRole)
    (hanc : Resource.nthParent n R = some A)
    (hread : s.ListGrants U = .ok gs) (hg : g ∈ gs) (hname : g.names A = true)
    (hrole : GoMap.index roles g.role = some Q)
    (hQ : P.Name ∈ GoMap.keys Q.Capabilities)
    (hR : P.Name ∈ GoMap.keys R.Capabilities) :
    (Access.mk roles).Can s U P R = (true, none) := by
  refine Access.Can_true_of_grant (Access.mk roles) s U P R A gs g
    ((GoMap.has_iff_mem_keys _ _).mpr hR) hread hg
    ((Resource.mem_ancestors A R).mpr ⟨n, hanc⟩) hname ?_
  simp only [Access.roleGrants, hrole]
  exact (GoMap.has_iff_mem_keys _ _).mpr hQ

/-- C4: for every principal, every store (every grant state, failing or not),
every resource R and every permission P whose name is not a key of
`R.Capabilities()`, `Access.Can(principal, P, R)` is `(false, nil)`. -/
theorem Can_false_outside_capabilities (a : Access) (s : Store) (U : User) (P : Permission)
    (R : Resource) (hP : P.Name ∉ GoMap.keys R.Capabilities) :
    a.Can s U P R = (false, none) := by
  have hhas : GoMap.has R.Capabilities P.Name = false := by
    cases h : GoMap.has R.Capabilities P.Name with
    | false => rfl
    | true => exact absurd ((GoMap.has_iff_mem_keys _ _).mp h) hP
  simp [Access.Can, hhas]

/-- C5: if every grant the store lists for U names R, and neither R' nor any
resource reached from R' by repeated `ParentOf` agrees with R in both kind and
URI, then `Access.Can(U, P, R')` returns false for every permission P. -/
theorem Can_false_elsewhere (a : Access) (s : Store) (U : User) (R R' : Resource)
    (honly : ∀ gs, s.ListGrants U = .ok gs → ∀ g ∈ gs, g.names R = true)
    (hfar : ∀ n A, Resource.nthParent n R' = some A → ¬ (A.kind = R.kind ∧ A.URI = R.URI))
    (P : Permission) :
    (a.Can s U P R').1 = false := by
  cases h : (a.Can s U P R').1 with
  | false => rfl
  | true =>
    exfalso
    obtain ⟨gs, g, A, hread, hg, hA, hname, _⟩ := Access.Can_true_has_grant a s U P R' h
    obtain ⟨n, hn⟩ := (Resource.mem_ancestors A R').mp hA
    have hR := honly gs hread g hg
    simp only [Grant.names, Bool.and_eq_true, decide_eq_true_eq] at hname hR
    exact hfar n A hn ⟨hname.1.symm.trans hR.1, hname.2.symm.trans hR.2⟩

/-- C6: if the store lists the grants of U and every role that one of them gives
U on R or on a resource reached from R by repeated `ParentOf` has capabilities
that do not contain P, then `Access.Can(U, P, R)` is `(false, nil)`, whether or
not P is legal for the kind of R. -/
theorem Can_false_without_capable_role (roles : RoleMap) (s : Store) (U : User)
    (P : Permission) (R : Resource) (gs : List Grant)
    (hread : s.ListGrants U = .ok gs)
    (hnone : ∀ g ∈ gs, ∀ n A, Resource.nthParent n R = some A → g.names A = true →
      ∀ Q, GoMap.index roles g.role = some Q → P.Name ∉ GoMap.keys Q.Capabilities) :
    (Access.mk roles).Can s U P R = (false, none) := by
  refine Access.Can_false_of_no_grant (Access.mk roles) s U P R gs hread ?_
  intro A hA g hg hname
  obtain ⟨n, hn⟩ := (Resource.mem_ancestors A R).mp hA
  simp only [Access.roleGrants]
  cases hrole : GoMap.index roles g.role with
  | none => rfl
  | some Q =>
    cases hh : GoMap.has Q.Capabilities P.Name with
    | false => simp [hh]
    | true =>
      exact absurd ((GoMap.has_iff_mem_keys _ _).mp hh) (hnone g hg n A hn hname Q hrole)

/-! ### The Ubuntu SSO scheme -/

theorem Values.lacks_eq (v : Values) (key : String) :
    Values.lacks v key = decide (Values.Get v key = "") := by
  unfold Values.lacks Values.Get
  cases GoMap.index v key with
  | none => simp
  | some xs =>
    cases xs with
    | nil => simp
    | cons x rest => simp

/-- C9: when one of the five credentials is absent or empty, `Validate` returns
the id "" and the error "No <Field> provided in authorization" for the first
such field in the order ConsumerKey, ConsumerSecret, TokenKey, TokenSecret,
TokenName, and sends no request to the SSO server. -/
theorem Validate_rejects_missing_credential (s : UssoScheme) (c : Collaborators)
    (values : Values) (h : ∃ f ∈ credentialFields, Values.lacks values f = true) :
    ∃ f, credentialFields.find? (fun f => Values.lacks values f) = some f ∧
      s.Validate c values =
        (("", some (Error.Errorf ("No " ++ f ++ " provided in authorization") [])), []) := by
  simp only [credentialFields, List.mem_cons, List.mem_singleton, List.not_mem_nil, or_false,
    Values.lacks_eq, decide_eq_true_eq, exists_eq_or_imp, exists_eq_left] at h
  simp only [credentialFields, Values.lacks_eq]
  unfold UssoScheme.Validate
  by_cases h1 : Values.Get values "ConsumerKey" = ""
  · exact ⟨"ConsumerKey", by simp [List.find?, h1], by simp only [h1, if_true]; rfl⟩
  by_cases h2 : Values.Get values "ConsumerSecret" = ""
  · exact ⟨"ConsumerSecret", by simp [List.find?, h1, h2],
      by simp only [h1, h2, if_true, if_false]; rfl⟩
  by_cases h3 : Values.Get values "TokenKey" = ""
  · exact ⟨"TokenKey", by simp [List.find?, h1, h2, h3],
      by simp only [h1, h2, h3, if_true, if_false]; rfl⟩
  by_cases h4 : Values.Get values "TokenSecret" = ""
  · exact ⟨"TokenSecret", by simp [List.find?, h1, h2, h3, h4],
      by simp only [h1, h2, h3, h4, if_true, if_false]; rfl⟩
  by_cases h5 : Values.Get values "TokenName" = ""
  · exact ⟨"TokenName", by simp [List.find?, h1, h2, h3, h4, h5],
      by simp only [h1, h2, h3, h4, h5, if_true, if_false]; rfl⟩
  · exfalso
    rcases h with h | h | h | h | h
    · exact h1 h
    · exact h2 h
    · exact h3 h
    · exact h4 h
    · exact h5 h

/-- What `Validate` does once the five credentials are there: the request it
sends and the decision it takes on the reply. -/
theorem UssoScheme.Validate_with_credentials (s : UssoScheme) (c : Collaborators)
    (values : Values) (hcred : ∀ f ∈ credentialFields, Values.lacks values f = false) :
    s.Validate c values =
      (match c.GetAccounts
          ⟨Values.Get values "ConsumerKey", Values.Get values "ConsumerSecret",
           Values.Get values "TokenKey", Values.Get values "TokenSecret",
           Values.Get values "TokenName"⟩ with
        | .error err => ("", some err)
        | .ok resultRaw =>
          match c.Unmarshal resultRaw with
          | .error err => ("", some err)
          | .ok result =>
            if !GoMap.has result "email" || !GoMap.has result "displayname"
                || !GoMap.has result "tokens" then
              ("", some (Error.Errorf "SSO validation failed, missing required fields" []))
            else
              match GoMap.index result "email" with
              | some (GoValue.string email) =>
                if email = "" then
                  ("", some (Error.Errorf "Invalid SSO data received for %v"
                    [GoValue.string email]))
                else (email, none)
              | other =>
                ("", some (Error.Errorf "Invalid SSO data received for %v"
                  [other.getD GoValue.nil])),
       [⟨Values.Get values "ConsumerKey", Values.Get values "ConsumerSecret",
         Values.Get values "TokenKey", Values.Get values "TokenSecret",
         Values.Get values "TokenName"⟩]) := by
  simp only [credentialFields, List.mem_cons, List.mem_singleton, List.not_mem_nil, or_false,
    Values.lacks_eq, decide_eq_false_iff_not, forall_eq_or_imp, forall_eq] at hcred
  obtain ⟨h1, h2, h3, h4, h5⟩ := hcred
  unfold UssoScheme.Validate
  simp only [h1, h2, h3, h4, h5, if_false]
  cases c.GetAccounts _ with
  | error err => rfl
  | ok raw =>
    simp only []
    cases c.Unmarshal raw with
    | error err => rfl
    | ok result =>
      simp only []
      split
      · rfl
      · split <;> (try split) <;> rfl

/-- C8: with the five credentials non-empty and a successful reply of the SSO
server, `Validate` returns a nil error exactly when the reply decodes to an
object with the keys email, displayname and tokens whose email is a non-empty
string; the id returned is then that email, hence non-empty, and in every
failing case the id is the empty string. -/
theorem Validate_checks_necessary_fields (s : UssoScheme) (c : Collaborators)
    (values : Values) (raw : String)
    (hcred : ∀ f ∈ credentialFields, Values.lacks values f = false)
    (hreply : c.GetAccounts
        ⟨Values.Get values "ConsumerKey", Values.Get values "ConsumerSecret",
         Values.Get values "TokenKey", Values.Get values "TokenSecret",
         Values.Get values "TokenName"⟩ = .ok raw) :
    ((s.Validate c values).1.2 = none ↔
      ∃ result email, c.Unmarshal raw = .ok result ∧
        "email" ∈ GoMap.keys result ∧ "displayname" ∈ GoMap.keys result ∧
        "tokens" ∈ GoMap.keys result ∧
        GoMap.index result "email" = some (GoValue.string email) ∧ email ≠ "") ∧
    (∀ result email, c.Unmarshal raw = .ok result →
        GoMap.index result "email" = some (GoValue.string email) →
        (s.Validate c values).1.2 = none → (s.Validate c values).1.1 = email) ∧
    ((s.Validate c values).1.2 = none → (s.Validate c values).1.1 ≠ "") ∧
    ((s.Validate c values).1.2 ≠ none → (s.Validate c values).1.1 = "") := by
  rw [UssoScheme.Validate_with_credentials s c values hcred, hreply]
  simp only []
  cases hdec : c.Unmarshal raw with
  | error err => simp
  | ok result =>
    simp only [← GoMap.has_iff_mem_keys]
    cases he : GoMap.has result "email" with
    | false => simp [he]
    | true =>
      cases hd : GoMap.has result "displayname" with
      | false => simp [he, hd]
      | true =>
        cases ht : GoMap.has result "tokens" with
        | false => simp [he, hd, ht]
        | true =>
          cases hidx : GoMap.index result "email" with
          | none => simp [he, hd, ht, hidx]
          | some v =>
            cases v with
            | string email =>
              by_cases hem : email = ""
              · simp [he, hd, ht, hidx, hem]
              · simp only [he, hd, ht, hidx, hem]
                simp only [Bool.not_true, Bool.or_self, Bool.false_eq_true, if_false, true_and,
                  Except.ok.injEq, Option.some.injEq, GoValue.string.injEq, ne_eq,
                  exists_eq_left', not_true_eq_false, false_implies, and_true]
                refine ⟨⟨fun _ => ⟨result, email, rfl, he, hd, ht, hidx, hem⟩, fun _ => trivial⟩,
                  ?_, fun _ => hem⟩
                intro r1 e1 hr h1 _
                subst hr
                rw [hidx] at h1
                injection h1 with h1
                injection h1
            | nil => simp [he, hd, ht, hidx]
            | bool b => simp [he, hd, ht, hidx]
            | float64 l => simp [he, hd, ht, hidx]
            | slice xs => simp [he, hd, ht, hidx]
            | map m => simp [he, hd, ht, hidx]

theorem UssoScheme.callback_error (s : UssoScheme) (ids : List (GoMap String))
    (acc : User × Values × Option Error)
    (hacc : acc.2.2 = none ∨ acc.2.2 = some (Error.Errorf "Failed to authenticate" [])) :
    (ids.foldl s.callbackStep acc).2.2 = none ∨
      (ids.foldl s.callbackStep acc).2.2 = some (Error.Errorf "Failed to authenticate" []) := by
  induction ids generalizing acc with
  | nil => simpa using hacc
  | cons id rest ih =>
    rw [List.foldl_cons]
    exact ih _ (Or.inl rfl)

/-- C10, amended: for every token the scheme built by `NewOauthCli(token)` has a
nil `OpenID`; for every request its `Callback` returns the zero `User`, nil
values and the error "OpenID not supported", and its `Authenticate` returns
false (after writing a 500).  A scheme built by `NewOpenIdWeb` holds the pointer
that `common.NewSimpleOpenID(scheme, token)` returned, unchecked; whenever that
pointer is non-nil, its `Callback` returns non-nil values and never the error
"OpenID not supported", and its `Authenticate` is decided by the handler. -/
theorem OauthCli_web_login_fails (c : Collaborators) (token : String) (r : Request) :
    (NewOauthCli token).OpenID.isNone = true ∧
    (NewOauthCli token).Callback r =
      (⟨⟨"", ""⟩⟩, none, some (Error.Errorf "OpenID not supported" [])) ∧
    (NewOauthCli token).Authenticate c r = (false, some ("Server error", 500)) ∧
    (∀ scheme : String, (NewOpenIdWeb c scheme token).OpenID = c.NewSimpleOpenID scheme token) ∧
    ∀ (scheme : String) (o : OpenID), c.NewSimpleOpenID scheme token = some o →
      (NewOpenIdWeb c scheme token).OpenID.isSome = true ∧
      (∃ user values err, (NewOpenIdWeb c scheme token).Callback r = (user, some values, err) ∧
        err ≠ some (Error.Errorf "OpenID not supported" [])) ∧
      (NewOpenIdWeb c scheme token).Authenticate c r =
        (match o.Authenticate c.LoginURL r with
          | (_, some _) => (false, some ("Server error", 500))
          | (rv, none) => (rv, none)) := by
  refine ⟨rfl, rfl, rfl, fun _ => rfl, ?_⟩
  intro scheme o ho
  refine ⟨by simp [NewOpenIdWeb, ho], ?_, by simp [NewOpenIdWeb, ho, UssoScheme.Authenticate]⟩
  refine ⟨((NewOpenIdWeb c scheme token).callbackRun o r).1,
    ((NewOpenIdWeb c scheme token).callbackRun o r).2.1,
    ((NewOpenIdWeb c scheme token).callbackRun o r).2.2, ?_, ?_⟩
  · simp only [UssoScheme.Callback, NewOpenIdWeb, ho]
  · rcases UssoScheme.callback_error (NewOpenIdWeb c scheme token) (o.Callback r)
        (⟨⟨"", ""⟩⟩, [], some (Error.Errorf "Failed to authenticate" [])) (Or.inr rfl) with h | h
    · unfold UssoScheme.callbackRun
      rw [h]; simp
    · unfold UssoScheme.callbackRun
      rw [h]
      intro e
      injection e with e
      injection e with e _
      exact absurd e (by decide)

/-! ## The claims on the scenarios of the test-suite -/

theorem MustParseUser_fixtures :
    MustParseUser "test:scruffy" = some scruffy ∧ MustParseUser "test:fry" = some fry ∧
    MustParseUser "test:leela" = some leela ∧ MustParseUser "test:bender" = some bender ∧
    MustParseUser "scruffy" = none ∧ MustParseUser ":scruffy" = none ∧
    MustParseUser "test:" = none := by
  decide

/-- C2 on the fixture: janitor is granted to test:scruffy on facilities:bucket,
then test:scruffy can empty that bucket. -/
theorem Grant_then_Can_witness :
    (Admin.mk FuturamaRoles).Grant emptyStore scruffy JanitorRole bucket = (scruffyStore, none) ∧
    (Access.mk FuturamaRoles).Can scruffyStore scruffy EmptyBucketPerm bucket = (true, none) :=
  ⟨rfl, Grant_then_Can FuturamaRoles emptyStore scruffyStore scruffy JanitorRole bucket
    EmptyBucketPerm rfl (by decide) (by decide) rfl⟩

/-- C3 on the fixture: user is granted to test:bender on planet-express-hq, and
test:bender can use the vending machine whose parent is planet-express-hq. -/
theorem Can_by_grant_on_ancestor_witness :
    (Resource.facilities vendingMachine).ParentOf = some (Resource.facilities building) ∧
    (Access.mk FuturamaRoles).Can benderStore bender UseThingPerm
      (Resource.facilities vendingMachine) = (true, none) :=
  ⟨rfl, Can_by_grant_on_ancestor FuturamaRoles benderStore bender UseThingPerm
    (Resource.facilities vendingMachine) (Resource.facilities building) 1
    [⟨bender, "user", Kind.facilities, "planet-express-hq"⟩]
    ⟨bender, "user", Kind.facilities, "planet-express-hq"⟩ UserRole
    rfl rfl (by simp) rfl rfl (by decide) (by decide)⟩

/-- C4 on the fixture: empty-bucket is not a spacecraft capability, so
test:scruffy cannot empty the ship, even in a failing store that lists him as
pilot. -/
theorem Can_false_outside_capabilities_witness :
    EmptyBucketPerm.Name ∉ GoMap.keys ship.Capabilities ∧
    (Access.mk FuturamaRoles).Can brokenStore scruffy EmptyBucketPerm ship = (false, none) :=
  ⟨by decide, Can_false_outside_capabilities (Access.mk FuturamaRoles) brokenStore scruffy
    EmptyBucketPerm ship (by decide)⟩

/-- C5 on the fixture: test:scruffy holds janitor on facilities:bucket only; he
can empty neither the facilities resource "walrus:bucket" nor the facilities
resource "spacecraft:ship". -/
theorem Can_false_elsewhere_witness :
    ((Access.mk FuturamaRoles).Can scruffyStore scruffy EmptyBucketPerm walrusBucket).1 = false ∧
    ((Access.mk FuturamaRoles).Can scruffyStore scruffy EmptyBucketPerm shipAsFacility).1
      = false :=
  ⟨Can_false_elsewhere (Access.mk FuturamaRoles) scruffyStore scruffy bucket walrusBucket
      (fun gs h g hg => by
        have e : (Except.ok [⟨scruffy, "janitor", Kind.facilities, "facilities:bucket"⟩] :
            Except Error (List Grant)) = Except.ok gs := h
        injection e with e
        subst e
        simp only [List.mem_singleton] at hg
        subst hg
        rfl)
      (fun n A h => by
        cases n with
        | zero =>
          simp only [Resource.nthParent, Option.some.injEq] at h
          subst h
          decide
        | succ n =>
          simp [Resource.nthParent, walrusBucket, Resource.ParentOf,
            facilitiesResource.parent] at h)
      EmptyBucketPerm,
   Can_false_elsewhere (Access.mk FuturamaRoles) scruffyStore scruffy bucket shipAsFacility
      (fun gs h g hg => by
        have e : (Except.ok [⟨scruffy, "janitor", Kind.facilities, "facilities:bucket"⟩] :
            Except Error (List Grant)) = Except.ok gs := h
        injection e with e
        subst e
        simp only [List.mem_singleton] at hg
        subst hg
        rfl)
      (fun n A h => by
        cases n with
        | zero =>
          simp only [Resource.nthParent, Option.some.injEq] at h
          subst h
          decide
        | succ n =>
          simp [Resource.nthParent, shipAsFacility, Resource.ParentOf,
            facilitiesResource.parent] at h)
      EmptyBucketPerm⟩

/-- C6 on the fixture: test:fry holds only passenger on spacecraft:ship, so he
cannot control the ship although he can board it; test:leela, who holds pilot,
can do both. -/
theorem Can_false_without_capable_role_witness :
    (Access.mk FuturamaRoles).Can crewStore fry ControlShipPerm ship = (false, none) ∧
    (Access.mk FuturamaRoles).Can crewStore fry BoardShipPerm ship = (true, none) ∧
    (Access.mk FuturamaRoles).Can crewStore leela ControlShipPerm ship = (true, none) ∧
    (Access.mk FuturamaRoles).Can crewStore leela BoardShipPerm ship = (true, none) :=
  ⟨Can_false_without_capable_role FuturamaRoles crewStore fry ControlShipPerm ship
      [⟨fry, "passenger", Kind.spacecraft, "spacecraft:ship"⟩] rfl
      (fun g hg n A _ _ Q hQ => by
        simp only [List.mem_singleton] at hg
        subst hg
        have hp : GoMap.index FuturamaRoles "passenger" = some PassengerRole := rfl
        simp only [hp, Option.some.injEq] at hQ
        subst hQ
        decide),
   rfl, rfl, rfl⟩

/-- C7 on the fixture: the vending machine's parent is planet-express-hq, which
is a root. -/
theorem ParentOf_none_exactly_at_root_witness :
    vendingMachine.parent = some building ∧
    (Resource.facilities vendingMachine).ParentOf = some (Resource.facilities building) ∧
    (Resource.facilities building).ParentOf = none :=
  ⟨rfl, ((ParentOf_none_exactly_at_root.1 vendingMachine).2 building rfl).1,
   ((ParentOf_none_exactly_at_root.1 building).1).mpr rfl⟩

/-- C8 on the fixture: with complete credentials and an account object in reply,
`Validate` returns the email of the account and no error. -/
theorem Validate_checks_necessary_fields_witness :
    ((NewOauthCli "token").Validate sampleCollaborators sampleCredentials).1.2 = none ∧
    ((NewOauthCli "token").Validate sampleCollaborators sampleCredentials).1.1
      = "fry@planetexpress.example" :=
  have T := Validate_checks_necessary_fields (NewOauthCli "token") sampleCollaborators
    sampleCredentials sampleReply (by decide) rfl
  have herr := T.1.mpr
    ⟨[("email", GoValue.string "fry@planetexpress.example"),
      ("displayname", GoValue.string "Fry"), ("tokens", GoValue.slice [])],
     "fry@planetexpress.example", rfl, by decide, by decide, by decide, rfl, by decide⟩
  ⟨herr, T.2.1 _ _ rfl rfl herr⟩

/-- C9 on the fixture: with an empty TokenKey and no TokenName, `Validate`
reports the TokenKey and sends nothing to the server. -/
theorem Validate_rejects_missing_credential_witness :
    (NewOauthCli "token").Validate sampleCollaborators brokenCredentials =
      (("", some (Error.Errorf "No TokenKey provided in authorization" [])), []) := by
  obtain ⟨f, hf, hv⟩ := Validate_rejects_missing_credential (NewOauthCli "token")
    sampleCollaborators brokenCredentials ⟨"TokenKey", by decide, by decide⟩
  have h2 : credentialFields.find? (fun f => Values.lacks brokenCredentials f)
      = some "TokenKey" := by decide
  rw [h2] at hf
  injection hf with hf
  subst hf
  exact hv

/-- C10 on the fixture: a scheme built by `NewOpenIdWeb` with a handler keeps
it, and its `Authenticate` gives the handler's answer. -/
theorem OauthCli_web_login_fails_witness :
    sampleCollaborators.NewSimpleOpenID "usso" "token" = some sampleOpenID ∧
    (NewOpenIdWeb sampleCollaborators "usso" "token").OpenID.isSome = true ∧
    (NewOpenIdWeb sampleCollaborators "usso" "token").Authenticate sampleCollaborators
      sampleRequest = (true, none) ∧
    (NewOauthCli "token").Authenticate sampleCollaborators sampleRequest
      = (false, some ("Server error", 500)) :=
  have T := OauthCli_web_login_fails sampleCollaborators "token" sampleRequest
  have W := T.2.2.2.2 "usso" sampleOpenID rfl
  ⟨rfl, W.1, W.2.2, T.2.2.1⟩

/-- C10 as stated fails: `NewOpenIdWeb` stores the result of
`common.NewSimpleOpenID` without a nil check, so with a constructor that returns
a nil pointer the scheme it builds has a nil `OpenID`, its `Callback` returns
the zero `User`, nil values and the error "OpenID not supported", and its
`Authenticate` returns false after writing a 500; hence it is not true that
every scheme built by `NewOpenIdWeb` has a non-nil `OpenID`. -/
theorem NewOpenIdWeb_may_lack_OpenID :
    (NewOpenIdWeb handlerlessCollaborators "usso" "token").OpenID.isSome = false ∧
    (NewOpenIdWeb handlerlessCollaborators "usso" "token").Callback sampleRequest =
      (⟨⟨"", ""⟩⟩, none, some (Error.Errorf "OpenID not supported" [])) ∧
    (NewOpenIdWeb handlerlessCollaborators "usso" "token").Authenticate
      handlerlessCollaborators sampleRequest = (false, some ("Server error", 500)) ∧
    ¬ (∀ (c : Collaborators) (scheme token : String),
        (NewOpenIdWeb c scheme token).OpenID.isSome = true) :=
  ⟨rfl, rfl, rfl, fun h => absurd (h handlerlessCollaborators "usso" "token") (by decide)⟩

end Affinity
